import Mathlib

/-!
Verification of the SOC-FeedViz backend feed pipeline (`backend/server.js`).

Strings are modelled as `String` / `List Char`. JavaScript values that may be
`undefined`, `null` or `''` (all falsy) are modelled as `Option` with `none`
standing for any falsy value. Exceptions are modelled with `Except`, and
`try`/`catch` blocks by matching on the `Except` value. Network and
filesystem outcomes, hash values and `Date` parsing are supplied as explicit
environment parameters, since they are external to the program text.

The regular-expression matching used by `server.js` (via `String.match` and
`String.replace`) is modelled by a small backtracking matcher over the exact
patterns appearing in the source, with the usual leftmost-match, greedy,
first-alternative semantics of JavaScript regexes.
-/

/-- Case-insensitive character comparison (all the regexes in `server.js`
that match letters carry the `i` flag). -/
def ciEq (c a : Char) : Bool := c.toLower == a.toLower

/-- Case-insensitive "starts with" on character lists. -/
def ciStarts : List Char → List Char → Bool
  | [], _ => true
  | _ :: _, [] => false
  | c :: cs, b :: bs => ciEq c b && ciStarts cs bs

/-- Quantifiers used by the patterns in `server.js`. -/
inductive Quant where
  | one
  | star
  | plus
  | opt
deriving DecidableEq

/-- One item of a regex pattern: a literal character, a character class with
a quantifier, an alternation of literal strings, or the opening/closing of
capture group 1. -/
inductive RItem where
  | lit (c : Char)
  | cls (p : Char → Bool) (q : Quant)
  | alt (ss : List (List Char))
  | grpOpen
  | grpClose

/-- Matcher state: whether capture group 1 is open, the characters captured
so far (reversed), and the completed capture. -/
structure MSt where
  opened : Bool
  acc : List Char
  grp : Option (List Char)

def initSt : MSt := ⟨false, [], none⟩

/-- Record a consumed input character in the capture group if it is open. -/
def consume (st : MSt) (c : Char) : MSt :=
  if st.opened then { st with acc := c :: st.acc } else st

def consumeAll (st : MSt) (cs : List Char) : MSt := cs.foldl consume st

/-- Termination weight of a pattern item. -/
def iweight : RItem → Nat
  | .alt ss => 2 + ss.length
  | _ => 1

/-- Termination weight of a pattern. -/
def pweight (ps : List RItem) : Nat := (ps.map iweight).sum

/-- Run a pattern against the input at the current position (anchored),
with backtracking: greedy quantifiers, alternatives tried in order.
Returns the final matcher state and the remaining input on success.
The `fuel` argument only makes the recursion structural; every recursive
call strictly decreases the measure (input length, `pweight`) in the
lexicographic order, and the wrapper `mrun` below supplies fuel larger
than any such descending chain, so fuel exhaustion never occurs there. -/
def mrunF : Nat → List RItem → List Char → MSt → Option (MSt × List Char)
  | 0, _, _, _ => none
  | _ + 1, [], inp, st => some (st, inp)
  | f + 1, .grpOpen :: ps, inp, st => mrunF f ps inp { st with opened := true, acc := [] }
  | f + 1, .grpClose :: ps, inp, st =>
      mrunF f ps inp { st with opened := false, grp := some st.acc.reverse }
  | _ + 1, .lit _ :: _, [], _ => none
  | f + 1, .lit c :: ps, a :: t, st =>
      if ciEq c a then mrunF f ps t (consume st a) else none
  | _ + 1, .cls _ .one :: _, [], _ => none
  | f + 1, .cls p .one :: ps, a :: t, st =>
      if p a then mrunF f ps t (consume st a) else none
  | _ + 1, .cls _ .plus :: _, [], _ => none
  | f + 1, .cls p .plus :: ps, a :: t, st =>
      if p a then mrunF f (.cls p .star :: ps) t (consume st a) else none
  | f + 1, .cls _ .star :: ps, [], st => mrunF f ps [] st
  | f + 1, .cls p .star :: ps, a :: t, st =>
      if p a then (mrunF f (.cls p .star :: ps) t (consume st a)).orElse
                    (fun _ => mrunF f ps (a :: t) st)
      else mrunF f ps (a :: t) st
  | f + 1, .cls _ .opt :: ps, [], st => mrunF f ps [] st
  | f + 1, .cls p .opt :: ps, a :: t, st =>
      if p a then (mrunF f ps t (consume st a)).orElse (fun _ => mrunF f ps (a :: t) st)
      else mrunF f ps (a :: t) st
  | _ + 1, .alt [] :: _, _, _ => none
  | f + 1, .alt (s :: ss) :: ps, inp, st =>
      (if ciStarts s inp then
        mrunF f ps (inp.drop s.length) (consumeAll st (inp.take s.length))
      else none).orElse (fun _ => mrunF f (.alt ss :: ps) inp st)

/-- Anchored match with sufficient fuel: the recursion depth of `mrunF` is
bounded by the length of a strictly descending chain in
`(input length, pweight)`, which is below `(n + 1) * (w + 2)`. -/
def mrun (ps : List RItem) (inp : List Char) (st : MSt) : Option (MSt × List Char) :=
  mrunF ((inp.length + 1) * (pweight ps + 2)) ps inp st

/-- `String.match` semantics: try the pattern at each position from the left,
return capture group 1 of the first successful match. -/
def reFind (ps : List RItem) : List Char → Option (List Char)
  | [] => (mrun ps [] initSt).bind (fun r => r.1.grp)
  | a :: t =>
      ((mrun ps (a :: t) initSt).bind (fun r => r.1.grp)).orElse
        (fun _ => reFind ps t)

/-- Global `String.replace` semantics: scan left to right, replace each
leftmost match with `repl` and continue after it (a zero-width match emits
the replacement and advances one character, as in JavaScript).  Each step
consumes at least one input character, so the fuel in the wrapper `gsub`
below never runs out; on fuel exhaustion the rest is copied unchanged. -/
def gsubF (ps : List RItem) (repl : List Char) : Nat → List Char → List Char
  | 0, inp => inp
  | _ + 1, [] =>
      match mrun ps [] initSt with
      | some _ => repl
      | none => []
  | f + 1, a :: t =>
      match mrun ps (a :: t) initSt with
      | some (_, rem) =>
          if rem.length < t.length + 1 then repl ++ gsubF ps repl f rem
          else repl ++ a :: gsubF ps repl f t
      | none => a :: gsubF ps repl f t

/-- Global replace with sufficient fuel. -/
def gsub (ps : List RItem) (repl : List Char) (inp : List Char) : List Char :=
  gsubF ps repl (inp.length + 1) inp

/-- Shorthand: the literal items of a string. -/
def lits (s : String) : List RItem := s.data.map RItem.lit

def notGt (c : Char) : Bool := c != '>'

def isQuote (c : Char) : Bool := c == '"' || c == '\''

def notQuote (c : Char) : Bool := c != '"' && c != '\''

/-- Pattern 1 in `parseFeed`: standard img tags,
regex `<img[^>]+src=["']([^"']+)["']` with flag `i`. -/
def imgPat : List RItem :=
  lits "<img" ++ [.cls notGt .plus] ++ lits "src=" ++
  [.cls isQuote .one, .grpOpen, .cls notQuote .plus, .grpClose, .cls isQuote .one]

/-- Pattern 2: Open Graph meta tags,
regex `<meta[^>]+property=["']og:image["'][^>]+content=["']([^"']+)["']`. -/
def ogPat : List RItem :=
  lits "<meta" ++ [.cls notGt .plus] ++ lits "property=" ++
  [.cls isQuote .one] ++ lits "og:image" ++ [.cls isQuote .one] ++
  [.cls notGt .plus] ++ lits "content=" ++
  [.cls isQuote .one, .grpOpen, .cls notQuote .plus, .grpClose, .cls isQuote .one]

/-- Pattern 3: Twitter card image,
regex `<meta[^>]+name=["']twitter:image["'][^>]+content=["']([^"']+)["']`. -/
def twPat : List RItem :=
  lits "<meta" ++ [.cls notGt .plus] ++ lits "name=" ++
  [.cls isQuote .one] ++ lits "twitter:image" ++ [.cls isQuote .one] ++
  [.cls notGt .plus] ++ lits "content=" ++
  [.cls isQuote .one, .grpOpen, .cls notQuote .plus, .grpClose, .cls isQuote .one]

/-- Pattern 4: WordPress featured images,
regex `<img[^>]+class=["'][^"']*wp-post-image[^"']*["'][^>]+src=["']([^"']+)["']`. -/
def wpPat : List RItem :=
  lits "<img" ++ [.cls notGt .plus] ++ lits "class=" ++
  [.cls isQuote .one, .cls notQuote .star] ++ lits "wp-post-image" ++
  [.cls notQuote .star, .cls isQuote .one, .cls notGt .plus] ++ lits "src=" ++
  [.cls isQuote .one, .grpOpen, .cls notQuote .plus, .grpClose, .cls isQuote .one]

/-- Pattern 5: any img whose src has a common image extension,
regex `<img[^>]+src=["']([^"']*\.(jpg|jpeg|png|gif|webp))["']`. -/
def extPat : List RItem :=
  lits "<img" ++ [.cls notGt .plus] ++ lits "src=" ++
  [.cls isQuote .one, .grpOpen, .cls notQuote .star, .lit '.',
   .alt ["jpg".data, "jpeg".data, "png".data, "gif".data, "webp".data],
   .grpClose, .cls isQuote .one]

/-- `const match = s.match(re); if (match && match[1]) ...`: the match must
succeed and capture group 1 must be truthy (a non-empty string). -/
def jsMatch1 (ps : List RItem) (s : String) : Option String :=
  match reFind ps s.data with
  | some cap => if cap.isEmpty then none else some (String.mk cap)
  | none => none

/-- The image-selection logic of `parseFeed` (`server.js` lines 415–457):
five patterns tried in order against the entry description, then the img
pattern against the entry content if no image was found.  `none` models a
falsy (absent or empty) description/content field. -/
def selectImage (description content : Option String) : Option String :=
  let fromDesc : Option String :=
    match description with
    | none => none
    | some d =>
      match jsMatch1 imgPat d with
      | some u => some u
      | none =>
        match jsMatch1 ogPat d with
        | some u => some u
        | none =>
          match jsMatch1 twPat d with
          | some u => some u
          | none =>
            match jsMatch1 wpPat d with
            | some u => some u
            | none => jsMatch1 extPat d
  match fromDesc with
  | some u => some u
  | none =>
    match content with
    | none => none
    | some c => jsMatch1 imgPat c

/-- A description holding both a standard img tag and an og:image meta tag
with different URLs. -/
def exDesc : String :=
  "<p>x <img src=\"https://a.example/one.png\"> <meta property=\"og:image\" content=\"https://b.example/two.png\"></p>"

/-- C4: the feed reader selects the entry image by trying the six matchers
in the stated order (img src, og:image, twitter:image, WordPress class,
image-extension img, then img src on the content field), first match wins
and no match yields null; in particular a description holding both an img
tag and an og:image meta tag with different URLs yields the img URL. -/
theorem C4_image_fallback_chain :
    (∀ d c, selectImage d c =
      ((d.bind fun s =>
        jsMatch1 imgPat s <|> jsMatch1 ogPat s <|> jsMatch1 twPat s <|>
          jsMatch1 wpPat s <|> jsMatch1 extPat s) <|>
        c.bind (jsMatch1 imgPat))) ∧
    selectImage (some exDesc) none = some "https://a.example/one.png" ∧
    jsMatch1 ogPat exDesc = some "https://b.example/two.png" := by
  refine ⟨?_, by decide, by decide⟩
  intro d c
  cases d with
  | none =>
    cases c <;> rfl
  | some s =>
    cases h1 : jsMatch1 imgPat s <;>
      cases h2 : jsMatch1 ogPat s <;>
        cases h3 : jsMatch1 twPat s <;>
          cases h4 : jsMatch1 wpPat s <;>
            cases h5 : jsMatch1 extPat s <;>
              cases c <;>
                simp [selectImage, h1, h2, h3, h4, h5, Option.orElse]

/-! ## Content normalization (`extractArticleContent`, `server.js` 366–389) -/

def isSpaceTab (c : Char) : Bool := c == ' ' || c == '\t'

/-- The characters of the JavaScript `\s` class and of `String.trim` that
can occur in extracted article text (ASCII whitespace; the exotic Unicode
space characters are omitted from the model). -/
def isJsWs (c : Char) : Bool :=
  c == ' ' || c == '\t' || c == '\n' || c == '\r' || c == '\x0b' || c == '\x0c'

/-- Regex `<\/p>` (flag `gi`), replaced by a double line break. -/
def closePPat : List RItem := lits "</p>"

/-- Regex `<p[^>]*>` (flag `gi`), removed. -/
def openPPat : List RItem := lits "<p" ++ [.cls notGt .star, .lit '>']

/-- Regex `<br\s*\/?>` (flag `gi`), replaced by a line break. -/
def brPat : List RItem :=
  lits "<br" ++ [.cls isJsWs .star, .cls (fun c => c == '/') .opt, .lit '>']

/-- Regex `<\/div>` (flag `gi`), replaced by a line break. -/
def closeDivPat : List RItem := lits "</div>"

/-- Regex `<div[^>]*>` (flag `gi`), removed. -/
def openDivPat : List RItem := lits "<div" ++ [.cls notGt .star, .lit '>']

/-- Regex `<[^>]+>` (flag `g`), replaced by a single space. -/
def anyTagPat : List RItem := [.lit '<', .cls notGt .plus, .lit '>']

/-- Regex `[ \t]+` (flag `g`), collapsed to a single space. -/
def spaceTabPat : List RItem := [.cls isSpaceTab .plus]

/-- Regex `\n[ \t]+` (flag `g`), replaced by a line break. -/
def nlSpacePat : List RItem := [.lit '\n', .cls isSpaceTab .plus]

/-- Regex `[ \t]+\n` (flag `g`), replaced by a line break. -/
def spaceNlPat : List RItem := [.cls isSpaceTab .plus, .lit '\n']

/-- Regex `\n{3,}` (flag `g`), collapsed to a double line break. -/
def nl3Pat : List RItem :=
  [.lit '\n', .lit '\n', .lit '\n', .cls (fun c => c == '\n') .star]

/-- `String.prototype.trim`. -/
def jsTrim (s : List Char) : List Char :=
  ((s.dropWhile isJsWs).reverse.dropWhile isJsWs).reverse

/-- The normalization chain applied to `article.content` in
`extractArticleContent`, in source order, followed by `.trim()`. -/
def normalizeContent (s : List Char) : List Char :=
  jsTrim
    (gsub nl3Pat "\n\n".data
      (gsub spaceNlPat "\n".data
        (gsub nlSpacePat "\n".data
          (gsub spaceTabPat " ".data
            (gsub anyTagPat " ".data
              (gsub openDivPat []
                (gsub closeDivPat "\n".data
                  (gsub brPat "\n".data
                    (gsub openPPat []
                      (gsub closePPat "\n\n".data s))))))))))

/-- The trailing ellipsis marker appended on truncation. -/
def ellipsis : List Char := "...".data

/-- `if (content.length > 2000) content = content.substring(0, 2000) + '...'`. -/
def truncateContent (s : List Char) : List Char :=
  if 2000 < s.length then s.take 2000 ++ ellipsis else s

/-- `fullText: content || article.description || null` after normalization
and truncation of `content`; `descr` models the extractor's raw description
(`none` for a falsy value). -/
def fullTextOf (content : List Char) (descr : Option (List Char)) : Option (List Char) :=
  let c := truncateContent (normalizeContent content)
  if c.isEmpty then descr else some c

/-! Helper lemmas: a pattern whose first item rejects a character cannot
match an input starting with it, so a global replace leaves an input of
such characters unchanged. -/

theorem mrunF_lit_cons_none (f : Nat) (c : Char) (ps : List RItem) (a : Char)
    (t : List Char) (st : MSt) (h : ciEq c a = false) :
    mrunF f (.lit c :: ps) (a :: t) st = none := by
  cases f with
  | zero => rfl
  | succ f => simp [mrunF, h]

theorem mrunF_lit_nil_none (f : Nat) (c : Char) (ps : List RItem) (st : MSt) :
    mrunF f (.lit c :: ps) [] st = none := by
  cases f <;> rfl

theorem mrunF_plus_cons_none (f : Nat) (p : Char → Bool) (ps : List RItem)
    (a : Char) (t : List Char) (st : MSt) (h : p a = false) :
    mrunF f (.cls p .plus :: ps) (a :: t) st = none := by
  cases f with
  | zero => rfl
  | succ f => simp [mrunF, h]

theorem mrunF_plus_nil_none (f : Nat) (p : Char → Bool) (ps : List RItem) (st : MSt) :
    mrunF f (.cls p .plus :: ps) [] st = none := by
  cases f <;> rfl

theorem gsubF_rep (ps : List RItem) (repl : List Char)
    (hnil : ∀ f st, mrunF f ps [] st = none)
    (hcons : ∀ f t st, mrunF f ps ('a' :: t) st = none) :
    ∀ f n, gsubF ps repl f (List.replicate n 'a') = List.replicate n 'a' := by
  intro f
  induction f with
  | zero => intro n; rfl
  | succ f ih =>
    intro n
    cases n with
    | zero => simp [gsubF, mrun, hnil]
    | succ n =>
      rw [List.replicate_succ]
      simp only [gsubF, mrun, hcons]
      rw [ih n]

theorem gsub_rep_lit (c : Char) (ps : List RItem) (repl : List Char)
    (h : ciEq c 'a' = false) (n : Nat) :
    gsub (.lit c :: ps) repl (List.replicate n 'a') = List.replicate n 'a' :=
  gsubF_rep _ _ (fun f st => mrunF_lit_nil_none f c ps st)
    (fun f t st => mrunF_lit_cons_none f c ps 'a' t st h) _ n

theorem gsub_rep_plus (p : Char → Bool) (ps : List RItem) (repl : List Char)
    (h : p 'a' = false) (n : Nat) :
    gsub (.cls p .plus :: ps) repl (List.replicate n 'a') = List.replicate n 'a' :=
  gsubF_rep _ _ (fun f st => mrunF_plus_nil_none f p ps st)
    (fun f t st => mrunF_plus_cons_none f p ps 'a' t st h) _ n

theorem jsTrim_rep (n : Nat) : jsTrim (List.replicate n 'a') = List.replicate n 'a' := by
  have hws : isJsWs 'a' = false := by decide
  cases n with
  | zero => rfl
  | succ n =>
    have h1 : ∀ m, List.dropWhile isJsWs (List.replicate m 'a') = List.replicate m 'a' := by
      intro m
      cases m with
      | zero => rfl
      | succ m => rw [List.replicate_succ]; simp [List.dropWhile_cons, hws]
    simp [jsTrim, h1, List.reverse_replicate]

theorem normalizeContent_rep (n : Nat) :
    normalizeContent (List.replicate n 'a') = List.replicate n 'a' := by
  unfold normalizeContent
  rw [show closePPat = .lit '<' :: lits "/p>" from rfl, gsub_rep_lit _ _ _ (by decide)]
  rw [show openPPat = .lit '<' :: (lits "p" ++ [.cls notGt .star, .lit '>']) from rfl,
    gsub_rep_lit _ _ _ (by decide)]
  rw [show brPat = .lit '<' :: (lits "br" ++ [.cls isJsWs .star, .cls (fun c => c == '/') .opt, .lit '>']) from rfl,
    gsub_rep_lit _ _ _ (by decide)]
  rw [show closeDivPat = .lit '<' :: lits "/div>" from rfl, gsub_rep_lit _ _ _ (by decide)]
  rw [show openDivPat = .lit '<' :: (lits "div" ++ [.cls notGt .star, .lit '>']) from rfl,
    gsub_rep_lit _ _ _ (by decide)]
  rw [show anyTagPat = .lit '<' :: [.cls notGt .plus, .lit '>'] from rfl,
    gsub_rep_lit _ _ _ (by decide)]
  rw [show spaceTabPat = .cls isSpaceTab .plus :: [] from rfl,
    gsub_rep_plus _ _ _ (by decide)]
  rw [show nlSpacePat = .lit '\n' :: [.cls isSpaceTab .plus] from rfl,
    gsub_rep_lit _ _ _ (by decide)]
  rw [show spaceNlPat = .cls isSpaceTab .plus :: [.lit '\n'] from rfl,
    gsub_rep_plus _ _ _ (by decide)]
  rw [show nl3Pat = .lit '\n' :: [.lit '\n', .lit '\n', .cls (fun c => c == '\n') .star] from rfl,
    gsub_rep_lit _ _ _ (by decide)]
  exact jsTrim_rep n

/-- C5: for every extracted article body that the normalization chain leaves
unchanged (no HTML tags, no collapsible whitespace) and that is 5000
characters long, the resulting `fullText` is exactly the first 2000
characters followed by the 3-character ellipsis marker, 2003 characters in
total. -/
theorem C5_truncation_bound (body : List Char) (descr : Option (List Char))
    (hfix : normalizeContent body = body) (hlen : body.length = 5000) :
    fullTextOf body descr = some (body.take 2000 ++ ellipsis) ∧
    (body.take 2000 ++ ellipsis).length = 2003 := by
  have hlt : 2000 < body.length := by omega
  have ht : truncateContent (normalizeContent body) = body.take 2000 ++ ellipsis := by
    rw [hfix]
    unfold truncateContent
    rw [if_pos hlt]
  have hlen2 : (body.take 2000 ++ ellipsis).length = 2003 := by
    simp [List.length_append, List.length_take, hlen, ellipsis]
  refine ⟨?_, hlen2⟩
  unfold fullTextOf
  rw [ht]
  have hne : (body.take 2000 ++ ellipsis).isEmpty = false := by
    cases h : body.take 2000 ++ ellipsis with
    | nil => rw [h] at hlen2; simp at hlen2
    | cons x xs => rfl
  simp [hne]

/-- Witness for C5 at the concrete body of 5000 letters `a`. -/
theorem C5_truncation_bound_witness :
    fullTextOf (List.replicate 5000 'a') none =
      some ((List.replicate 5000 'a').take 2000 ++ ellipsis) ∧
    ((List.replicate 5000 'a').take 2000 ++ ellipsis).length = 2003 :=
  C5_truncation_bound (List.replicate 5000 'a') none
    (normalizeContent_rep 5000) (by rw [List.length_replicate])

/-! ## Feed reading and processing (`parseFeed`, `processFeed`) -/

/-- A raw feed entry as delivered by the feed extractor library.  Fields are
`Option`s; `none` models a falsy (absent, null or empty) field, matching the
truthiness tests in `server.js`. -/
structure RawEntry where
  title : Option String
  link : Option String
  description : Option String
  content : Option String
  published : Option String
  updated : Option String
deriving DecidableEq

/-- The object built for each entry by `parseFeed` (`server.js` 466–473). -/
structure RawItem where
  title : String
  link : String
  description : String
  pubDate : String
  image : Option String
deriving DecidableEq

/-- The per-entry mapping of `parseFeed`: defaults for title/link/description,
publish date falling back to the updated date and then to the current time
(`now`, the reader's `new Date().toISOString()`), and the image fallback
chain of `selectImage`. -/
def toRawItem (now : String) (e : RawEntry) : RawItem :=
  { title := e.title.getD "No title"
    link := e.link.getD "#"
    description := e.description.getD ""
    pubDate := (e.published.orElse (fun _ => e.updated)).getD now
    image := selectImage e.description e.content }

/-- `parseFeed`: the feed fetch either throws (`.error`), yields a falsy feed
or entry list (`.ok none`, mapped to `[]`), or yields entries that are mapped
through `toRawItem`. -/
def parseFeedRun (now : String) (res : Except String (Option (List RawEntry))) :
    Except String (List RawItem) :=
  match res with
  | .error e => .error e
  | .ok none => .ok []
  | .ok (some entries) => .ok (entries.map (toRawItem now))

/-- Result of `extractArticleContent`: total (it catches internally), all
fields nullable. -/
structure ArticleContent where
  fullText : Option String
  image : Option String
  author : Option String
deriving DecidableEq

/-- Environment of one `processFeed` invocation: the outcomes of the network
and library calls it performs, plus the current time. -/
structure FeedEnv where
  feedResult : Except String (Option (List RawEntry))
  favicon : Option String
  article : String → ArticleContent
  cacheImg : String → Option String
  urlOrigin : String → Option String
  jsToIso : String → Option String
  now : String
  nowMs : Nat

/-- `stripHtml` (`server.js` 479–482). -/
def wsPat : List RItem := [.cls isJsWs .plus]

def stripHtml (html : String) : String :=
  if html.isEmpty then ""
  else String.mk (jsTrim (gsub wsPat " ".data (gsub anyTagPat " ".data html.data)))

/-- A published feed item (`server.js` 513–524). -/
structure FeedItem where
  id : String
  title : String
  link : String
  description : String
  fullText : String
  pubDate : String
  source : String
  sourceIcon : String
  image : Option String
  author : Option String
deriving DecidableEq

/-- The body of the per-item loop of `processFeed`: article extraction,
image choice and relative-URL resolution, image caching, and item
construction.  `env.jsToIso raw.pubDate = none` models
`new Date(...).toISOString()` throwing on an unparseable date, in which case
the surrounding `try` swallows the error and the item is skipped (`none`). -/
def buildItem (env : FeedEnv) (feedName feedIcon : String) (idx : Nat)
    (raw : RawItem) : Option FeedItem :=
  let ac := env.article raw.link
  let best0 := ac.image.orElse (fun _ => raw.image)
  let best := best0.map (fun b =>
    if b.startsWith "/" then
      match env.urlOrigin raw.link with
      | some origin => origin ++ b
      | none => b
    else b)
  let cachedImageUrl := best.bind env.cacheImg
  match env.jsToIso raw.pubDate with
  | none => none
  | some iso =>
      some
        { id := feedName ++ "-" ++ toString env.nowMs ++ "-" ++ toString idx
          title := raw.title
          link := raw.link
          description := (stripHtml raw.description).take 300
          fullText := ac.fullText.getD (stripHtml raw.description)
          pubDate := iso
          source := feedName
          sourceIcon := env.favicon.getD feedIcon
          image := cachedImageUrl.orElse (fun _ => best)
          author := ac.author }

/-- The item loop: successful items are appended (`items.length` feeds the
next id index), failed items are skipped. -/
def buildItems (env : FeedEnv) (feedName feedIcon : String)
    (raws : List RawItem) : List FeedItem :=
  raws.foldl
    (fun acc raw =>
      match buildItem env feedName feedIcon acc.length raw with
      | some it => acc ++ [it]
      | none => acc) []

structure SourceConfig where
  name : String
  url : String
  icon : String
deriving DecidableEq

/-- Result of `processFeed` for one source.  On success the source object
carries `itemCount`; on failure it carries `error` and empty `items`. -/
structure ProcResult where
  success : Bool
  feedName : String
  itemCount : Option Nat
  error : Option String
  items : List FeedItem
deriving DecidableEq

/-- `processFeed` (`server.js` 487–544): read the feed (a thrown reader
error is caught and reported as a failure result), limit the entries to
`maxItemsPerFeed`, cache the favicon, and run the item loop. -/
def processFeedRun (maxItems : Nat) (feed : SourceConfig) (env : FeedEnv) : ProcResult :=
  match parseFeedRun env.now env.feedResult with
  | .error e =>
      { success := false, feedName := feed.name, itemCount := none
        error := some e, items := [] }
  | .ok rawItems =>
      let limited := rawItems.take maxItems
      let items := buildItems env feed.name feed.icon limited
      { success := true, feedName := feed.name, itemCount := some items.length
        error := none, items := items }

/-- An entry whose publish date is present but not parseable as a date. -/
def entryBadDate : RawEntry :=
  { title := some "t", link := some "https://x.example/a", description := none
    content := none, published := some "not-a-date", updated := none }

/-- Environment in which only the string `not-a-date` fails date parsing. -/
def envBadDate : FeedEnv :=
  { feedResult := .ok (some [entryBadDate])
    favicon := none
    article := fun _ => ⟨none, none, none⟩
    cacheImg := fun _ => none
    urlOrigin := fun _ => none
    jsToIso := fun s => if s == "not-a-date" then none else some s
    now := "2024-01-01T00:00:00.000Z"
    nowMs := 1704067200000 }

def feedX : SourceConfig := ⟨"X", "https://x.example/feed", "https://x.example/icon.ico"⟩

/-- C1 counterexample: an entry whose publish-date field is present but
unparseable is not emitted with the extraction time substituted — the
`toISOString` call throws and the per-item handler drops the item, so
`processFeed` returns zero items for this feed. -/
theorem C1_counterexample :
    entryBadDate.published.isSome = true ∧
    envBadDate.jsToIso (toRawItem envBadDate.now entryBadDate).pubDate = none ∧
    (processFeedRun 5 feedX envBadDate).success = true ∧
    (processFeedRun 5 feedX envBadDate).items = [] := by
  decide

/-- C1 amended: the extraction-time default applies only when both the
publish and the updated fields are absent; an entry whose publish date is
present but unparseable is dropped by the per-item error handler, while a
parseable date is emitted as its ISO form. -/
theorem C1_pubDate_default :
    (∀ (now : String) (e : RawEntry), e.published = none → e.updated = none →
      (toRawItem now e).pubDate = now) ∧
    (∀ (env : FeedEnv) (fn fi : String) (idx : Nat) (raw : RawItem),
      env.jsToIso raw.pubDate = none → buildItem env fn fi idx raw = none) ∧
    (∀ (env : FeedEnv) (fn fi : String) (idx : Nat) (raw : RawItem) (iso : String),
      env.jsToIso raw.pubDate = some iso →
      ∃ it, buildItem env fn fi idx raw = some it ∧ it.pubDate = iso) := by
  refine ⟨?_, ?_, ?_⟩
  · intro now e h1 h2
    simp [toRawItem, h1, h2, Option.orElse]
  · intro env fn fi idx raw h
    simp [buildItem, h]
  · intro env fn fi idx raw iso h
    simp only [buildItem, h]
    exact ⟨_, rfl, rfl⟩

/-- Witness for the amended C1 at concrete inputs. -/
theorem C1_pubDate_default_witness :
    (toRawItem "NOW"
      { title := none, link := none, description := none, content := none
        published := none, updated := none }).pubDate = "NOW" ∧
    buildItem envBadDate "X" "https://x.example/icon.ico" 0
      (toRawItem envBadDate.now entryBadDate) = none :=
  ⟨C1_pubDate_default.1 "NOW" _ rfl rfl,
   C1_pubDate_default.2.1 envBadDate "X" "https://x.example/icon.ico" 0 _ (by decide)⟩

/-- C6: a reader error for one source yields the failure record
`(success := false, error := message, items := [])` for that source, and the
results of all other sources do not depend on the failing source's
environment at all. -/
theorem C6_source_isolation :
    (∀ (maxItems : Nat) (feed : SourceConfig) (env : FeedEnv) (e : String),
      env.feedResult = .error e →
      processFeedRun maxItems feed env =
        { success := false, feedName := feed.name, itemCount := none
          error := some e, items := [] }) ∧
    (∀ (maxItems : Nat) (feeds : List SourceConfig) (bad : SourceConfig)
       (envOf envOf2 : SourceConfig → FeedEnv),
      (∀ f, f ≠ bad → envOf f = envOf2 f) →
      (feeds.filter (fun f => f != bad)).map
          (fun f => processFeedRun maxItems f (envOf f)) =
        (feeds.filter (fun f => f != bad)).map
          (fun f => processFeedRun maxItems f (envOf2 f))) := by
  constructor
  · intro maxItems feed env e h
    simp [processFeedRun, parseFeedRun, h]
  · intro maxItems feeds bad envOf envOf2 hagree
    induction feeds with
    | nil => rfl
    | cons f fs ih =>
      by_cases hf : f = bad
      · simp only [List.filter_cons, hf, bne_self_eq_false]
        exact ih
      · have hft : (f != bad) = true := by simp [hf]
        have hfc := @List.filter_cons_of_pos SourceConfig (fun g => g != bad) f fs hft
        rw [hfc, List.map_cons, List.map_cons, hagree f hf, ih]

def envOk : FeedEnv :=
  { feedResult := .ok (some []), favicon := none
    article := fun _ => ⟨none, none, none⟩
    cacheImg := fun _ => none, urlOrigin := fun _ => none
    jsToIso := fun s => some s, now := "N", nowMs := 0 }

def envErr : FeedEnv := { envOk with feedResult := .error "boom" }

def feedY : SourceConfig := ⟨"Y", "https://y.example/feed", "https://y.example/icon.ico"⟩

/-- Witness for C6 with two sources of which the first fails. -/
theorem C6_source_isolation_witness :
    processFeedRun 5 feedX envErr =
      { success := false, feedName := "X", itemCount := none
        error := some "boom", items := [] } ∧
    ([feedX, feedY].filter (fun f => f != feedX)).map
        (fun f => processFeedRun 5 f (if f = feedX then envErr else envOk)) =
      ([feedX, feedY].filter (fun f => f != feedX)).map
        (fun f => processFeedRun 5 f envOk) :=
  ⟨C6_source_isolation.1 5 feedX envErr "boom" rfl,
   C6_source_isolation.2 5 [feedX, feedY] feedX _ _ (fun _ hg => if_neg hg)⟩

/-! ## Aggregation cycle and snapshot (`fetchAllFeeds`, `server.js` 549–599) -/

/-- Per-source status stored in the snapshot (`server.js` 567–571). -/
structure SourceStatus where
  success : Bool
  itemCount : Nat
  error : Option String
deriving DecidableEq

/-- The snapshot exposed to all readers (`cachedFeeds`). -/
structure Snapshot where
  lastUpdated : Option String
  items : List FeedItem
  feedStatus : List (String × SourceStatus)
  feedTimestamps : List (String × String)
deriving DecidableEq

/-- The initial in-memory snapshot (`server.js` 198–203). -/
def emptySnapshot : Snapshot := ⟨none, [], [], []⟩

/-- The mutable server state relevant to the cycle: the `isRefreshing` flag
and the published snapshot. -/
structure ServerSt where
  isRefreshing : Bool
  cachedFeeds : Snapshot
deriving DecidableEq

/-- The sort comparator of `fetchAllFeeds`:
`allItems.sort((a, b) => new Date(b.pubDate) - new Date(a.pubDate))` puts
`a` before `b` when the comparator is nonpositive.  `dateVal` models
`new Date(s).getTime()` on the ISO strings produced by `processFeed`. -/
def itemLe (dateVal : String → Int) (a b : FeedItem) : Bool :=
  dateVal b.pubDate ≤ dateVal a.pubDate

/-- JavaScript `Array.prototype.sort` is a stable sort (ES2019); it is
modelled by the stable `List.mergeSort`. -/
def sortItems (dateVal : String → Int) (items : List FeedItem) : List FeedItem :=
  items.mergeSort (itemLe dateVal)

/-- `fetchAllFeeds`: a no-op returning the stale snapshot while a cycle is
running; otherwise process every configured source, merge and sort the
items, build the status and timestamp maps, and publish a new snapshot
(the transient `isRefreshing = true` window is internal to the call and the
final state has it cleared). -/
def fetchAllFeedsRun (dateVal : String → Int) (feeds : List SourceConfig)
    (maxItems : Nat) (envOf : SourceConfig → FeedEnv) (now : String)
    (st : ServerSt) : Snapshot × ServerSt :=
  if st.isRefreshing then (st.cachedFeeds, st)
  else
    let results := feeds.map (fun f => processFeedRun maxItems f (envOf f))
    let feedStatus := results.map
      (fun r => (r.feedName, SourceStatus.mk r.success r.items.length r.error))
    let feedTimestamps := results.map (fun r => (r.feedName, now))
    let allItems := sortItems dateVal ((results.map (fun r => r.items)).flatten)
    let snap : Snapshot := ⟨some now, allItems, feedStatus, feedTimestamps⟩
    (snap, ⟨false, snap⟩)

inductive RespBody where
  | message (s : String)
  | error (s : String)
deriving DecidableEq

structure Resp where
  status : Nat
  body : RespBody
deriving DecidableEq

/-- `POST /api/refresh` (`server.js` 645–655): 409 with an error body while
refreshing, otherwise fire-and-forget `fetchAllFeeds` and answer with a
message.  The boolean reports whether a cycle was invoked. -/
def refreshRoute (st : ServerSt) : Resp × Bool :=
  if st.isRefreshing then
    ({ status := 409, body := .error "Refresh already in progress" }, false)
  else
    ({ status := 200, body := .message "Refresh started" }, true)

/-- C2: while a cycle is running, `fetchAllFeeds` is a no-op returning the
current (stale) snapshot with the state unchanged, and `POST /api/refresh`
answers 409 with an error body without invoking a new cycle. -/
theorem C2_at_most_one_cycle :
    ∀ (dateVal : String → Int) (feeds : List SourceConfig) (maxItems : Nat)
      (envOf : SourceConfig → FeedEnv) (now : String) (st : ServerSt),
      st.isRefreshing = true →
      fetchAllFeedsRun dateVal feeds maxItems envOf now st = (st.cachedFeeds, st) ∧
      refreshRoute st =
        ({ status := 409, body := .error "Refresh already in progress" }, false) := by
  intro dateVal feeds maxItems envOf now st h
  constructor
  · unfold fetchAllFeedsRun
    rw [h]
    rfl
  · unfold refreshRoute
    rw [h]
    rfl

/-- Witness for C2 at a concrete running state. -/
theorem C2_at_most_one_cycle_witness :
    fetchAllFeedsRun (fun _ => 0) [feedX] 5 (fun _ => envOk) "N"
        ⟨true, emptySnapshot⟩ = (emptySnapshot, ⟨true, emptySnapshot⟩) ∧
    refreshRoute ⟨true, emptySnapshot⟩ =
      ({ status := 409, body := .error "Refresh already in progress" }, false) :=
  C2_at_most_one_cycle (fun _ => 0) [feedX] 5 (fun _ => envOk) "N"
    ⟨true, emptySnapshot⟩ rfl

/-- Date values for the concrete C7 example: `T+1h` is the latest, then `T`,
then `T-1d`. -/
def dvEx : String → Int :=
  fun s => if s = "T+1h" then 160 else if s = "T" then 100 else 50

/-- A minimal item carrying a given `pubDate`. -/
def itemAt (d : String) : FeedItem :=
  { id := d, title := "", link := "", description := "", fullText := ""
    pubDate := d, source := "", sourceIcon := "", image := none, author := none }

/-- C7: the published snapshot's item sequence is the stable descending
`pubDate` sort of the merged per-source items: it is sorted descending,
ties keep their original relative order, the published items are exactly
that sort of the merged results, and the `[T, T-1d, T+1h]` example sorts to
`[T+1h, T, T-1d]`. -/
theorem C7_sort_order :
    (∀ (dateVal : String → Int) (l : List FeedItem),
      (sortItems dateVal l).Pairwise (fun a b => itemLe dateVal a b = true)) ∧
    (∀ (dateVal : String → Int) (l : List FeedItem) (a b : FeedItem),
      dateVal a.pubDate = dateVal b.pubDate → List.Sublist [a, b] l →
      List.Sublist [a, b] (sortItems dateVal l)) ∧
    (∀ (dateVal : String → Int) (feeds : List SourceConfig) (maxItems : Nat)
       (envOf : SourceConfig → FeedEnv) (now : String) (st : ServerSt),
      st.isRefreshing = false →
      (fetchAllFeedsRun dateVal feeds maxItems envOf now st).1.items =
        sortItems dateVal
          (((feeds.map (fun f => processFeedRun maxItems f (envOf f))).map
            (fun r => r.items)).flatten)) ∧
    sortItems dvEx [itemAt "T", itemAt "T-1d", itemAt "T+1h"] =
      [itemAt "T+1h", itemAt "T", itemAt "T-1d"] := by
  have htrans : ∀ (dv : String → Int) (a b c : FeedItem),
      itemLe dv a b → itemLe dv b c → itemLe dv a c := by
    intro dv a b c hab hbc
    simp only [itemLe, decide_eq_true_eq] at *
    omega
  have htotal : ∀ (dv : String → Int) (a b : FeedItem),
      itemLe dv a b || itemLe dv b a := by
    intro dv a b
    simp only [itemLe, Bool.or_eq_true, decide_eq_true_eq]
    omega
  refine ⟨?_, ?_, ?_, ?_⟩
  · intro dv l
    have := @List.sorted_mergeSort FeedItem (itemLe dv) (htrans dv) (htotal dv) l
    simpa [sortItems] using this
  · intro dv l a b heq hsub
    have hab : itemLe dv a b := by
      simp only [itemLe, heq, decide_eq_true_eq]
      omega
    exact List.pair_sublist_mergeSort (htrans dv) (htotal dv) hab hsub
  · intro dv feeds maxItems envOf now st h
    unfold fetchAllFeedsRun
    rw [h]
    rfl
  · simp [sortItems, List.mergeSort, itemAt, itemLe, dvEx]

/-- Witness for C7: the stability and cycle conjuncts applied at concrete
inputs. -/
theorem C7_sort_order_witness :
    List.Sublist [itemAt "T", itemAt "T"] (sortItems dvEx [itemAt "T", itemAt "T"]) ∧
    (fetchAllFeedsRun dvEx [] 5 (fun _ => envOk) "N"
        ⟨false, emptySnapshot⟩).1.items =
      sortItems dvEx
        (((([] : List SourceConfig).map (fun f => processFeedRun 5 f envOk)).map
          (fun r => r.items)).flatten) :=
  ⟨C7_sort_order.2.1 dvEx [itemAt "T", itemAt "T"] (itemAt "T") (itemAt "T")
      rfl (List.Sublist.refl _),
   C7_sort_order.2.2.1 dvEx [] 5 (fun _ => envOk) "N" ⟨false, emptySnapshot⟩ rfl⟩

/-! ## Image cache (`urlToFilename`, `cacheImage`, `cacheFavicon`) -/

/-- Environment of the image cache: the MD5 hex digest, the extension
derived from `path.extname(new URL(url).pathname)` (`none` when the URL
constructor throws or the extension is empty — both fall back to the
default extension), and the outcomes of `fetch` (`.error` models a thrown
network error or timeout, `.ok` carries `response.ok`) and of
`fs.writeFileSync` per filename. -/
structure ImgEnv where
  md5 : String → String
  extOf : String → Option String
  fetchOk : String → Except String Bool
  writeOk : String → Except String Unit

/-- `urlToFilename` (`server.js` 273–281): MD5 hash of the URL plus the
URL's path extension, defaulting to `.jpg`. -/
def urlToFilename (env : ImgEnv) (url : String) : String :=
  env.md5 url ++ (env.extOf url).getD ".jpg"

/-- The body of `cacheImage` before its surrounding `try`/`catch`.  The
filesystem is the list of filenames in the images directory; the boolean
reports whether a network request was issued. -/
def cacheImageBody (env : ImgEnv) (fsFiles : List String) (url : String) :
    Except String (Option String × List String × Bool) :=
  let filename := urlToFilename env url
  if fsFiles.contains filename then .ok (some ("/images/" ++ filename), fsFiles, false)
  else
    match env.fetchOk url with
    | .error e => .error e
    | .ok ok =>
        if !ok then .ok (none, fsFiles, true)
        else
          match env.writeOk filename with
          | .error e => .error e
          | .ok _ => .ok (some ("/images/" ++ filename), filename :: fsFiles, true)

/-- `cacheImage` (`server.js` 286–312): the `try`/`catch` turns any thrown
error into `null`. -/
def cacheImageRun (env : ImgEnv) (fsFiles : List String) (url : String) :
    Option String × List String × Bool :=
  match cacheImageBody env fsFiles url with
  | .ok r => r
  | .error _ => (none, fsFiles, true)

/-- `feedName.replace(/[^a-z0-9]/gi, '-').toLowerCase()`. -/
def sanitizeName (s : String) : String :=
  String.mk ((s.data.map (fun c =>
    if ('a' ≤ c ∧ c ≤ 'z') ∨ ('A' ≤ c ∧ c ≤ 'Z') ∨ ('0' ≤ c ∧ c ≤ '9') then c
    else '-')).map Char.toLower)

/-- The favicon cache filename: `favicon-` plus the sanitized feed name plus
the icon URL's extension, defaulting to `.ico`. -/
def faviconFilename (env : ImgEnv) (iconUrl feedName : String) : String :=
  "favicon-" ++ sanitizeName feedName ++ (env.extOf iconUrl).getD ".ico"

/-- The body of `cacheFavicon` before its surrounding `try`/`catch`. -/
def cacheFaviconBody (env : ImgEnv) (fsFiles : List String)
    (iconUrl feedName : String) :
    Except String (Option String × List String × Bool) :=
  let filename := faviconFilename env iconUrl feedName
  if fsFiles.contains filename then .ok (some ("/images/" ++ filename), fsFiles, false)
  else
    match env.fetchOk iconUrl with
    | .error e => .error e
    | .ok ok =>
        if !ok then .ok (none, fsFiles, true)
        else
          match env.writeOk filename with
          | .error e => .error e
          | .ok _ => .ok (some ("/images/" ++ filename), filename :: fsFiles, true)

/-- `cacheFavicon` (`server.js` 316–348). -/
def cacheFaviconRun (env : ImgEnv) (fsFiles : List String)
    (iconUrl feedName : String) : Option String × List String × Bool :=
  match cacheFaviconBody env fsFiles iconUrl feedName with
  | .ok r => r
  | .error _ => (none, fsFiles, true)

/-- C3: after a first successful `cacheImage` call, a second call with the
same URL issues no network request and returns the same local reference,
leaving the cache unchanged. -/
theorem C3_cacheImage_idempotent :
    ∀ (env : ImgEnv) (fsFiles : List String) (url ref : String)
      (fs2 : List String) (d : Bool),
      cacheImageRun env fsFiles url = (some ref, fs2, d) →
      cacheImageRun env fs2 url = (some ref, fs2, false) := by
  intro env fsFiles url ref fs2 d h
  by_cases hm : urlToFilename env url ∈ fsFiles
  · have h1 : cacheImageRun env fsFiles url =
        (some ("/images/" ++ urlToFilename env url), fsFiles, false) := by
      simp [cacheImageRun, cacheImageBody, hm]
    rw [h1] at h
    simp only [Prod.mk.injEq, Option.some.injEq] at h
    obtain ⟨href, hfs, -⟩ := h
    subst href
    subst hfs
    exact h1
  · cases hf : env.fetchOk url with
    | error e =>
      have h1 : cacheImageRun env fsFiles url = (none, fsFiles, true) := by
        simp [cacheImageRun, cacheImageBody, hm, hf]
      rw [h1] at h
      simp at h
    | ok ok =>
      cases ok with
      | false =>
        have h1 : cacheImageRun env fsFiles url = (none, fsFiles, true) := by
          simp [cacheImageRun, cacheImageBody, hm, hf]
        rw [h1] at h
        simp at h
      | true =>
        cases hw : env.writeOk (urlToFilename env url) with
        | error e =>
          have h1 : cacheImageRun env fsFiles url = (none, fsFiles, true) := by
            simp [cacheImageRun, cacheImageBody, hm, hf, hw]
          rw [h1] at h
          simp at h
        | ok u =>
          have h1 : cacheImageRun env fsFiles url =
              (some ("/images/" ++ urlToFilename env url),
               urlToFilename env url :: fsFiles, true) := by
            simp [cacheImageRun, cacheImageBody, hm, hf, hw]
          rw [h1] at h
          simp only [Prod.mk.injEq, Option.some.injEq] at h
          obtain ⟨href, hfs, -⟩ := h
          subst href
          subst hfs
          simp [cacheImageRun, cacheImageBody]

/-- A concrete image-cache environment where everything succeeds. -/
def envImgOk : ImgEnv :=
  { md5 := fun _ => "abc", extOf := fun _ => none
    fetchOk := fun _ => .ok true, writeOk := fun _ => .ok () }

/-- Witness for C3: the second call after the successful first call from an
empty cache. -/
theorem C3_cacheImage_idempotent_witness :
    cacheImageRun envImgOk ["abc.jpg"] "https://x.example/p" =
      (some "/images/abc.jpg", ["abc.jpg"], false) :=
  C3_cacheImage_idempotent envImgOk [] "https://x.example/p" "/images/abc.jpg"
    ["abc.jpg"] true (by decide)

/-- C10: `cacheImage` and `cacheFavicon` never throw — in every failure mode
(network error or timeout, non-2xx response, filesystem write failure) they
return `null` and leave the cache unchanged. -/
theorem C10_cache_never_throws :
    (∀ (env : ImgEnv) (fsFiles : List String) (url e : String),
      env.fetchOk url = .error e →
      fsFiles.contains (urlToFilename env url) = false →
      cacheImageRun env fsFiles url = (none, fsFiles, true)) ∧
    (∀ (env : ImgEnv) (fsFiles : List String) (url : String),
      env.fetchOk url = .ok false →
      fsFiles.contains (urlToFilename env url) = false →
      cacheImageRun env fsFiles url = (none, fsFiles, true)) ∧
    (∀ (env : ImgEnv) (fsFiles : List String) (url e : String),
      env.fetchOk url = .ok true →
      env.writeOk (urlToFilename env url) = .error e →
      fsFiles.contains (urlToFilename env url) = false →
      cacheImageRun env fsFiles url = (none, fsFiles, true)) ∧
    (∀ (env : ImgEnv) (fsFiles : List String) (iconUrl feedName e : String),
      env.fetchOk iconUrl = .error e →
      fsFiles.contains (faviconFilename env iconUrl feedName) = false →
      cacheFaviconRun env fsFiles iconUrl feedName = (none, fsFiles, true)) ∧
    (∀ (env : ImgEnv) (fsFiles : List String) (iconUrl feedName : String),
      env.fetchOk iconUrl = .ok false →
      fsFiles.contains (faviconFilename env iconUrl feedName) = false →
      cacheFaviconRun env fsFiles iconUrl feedName = (none, fsFiles, true)) ∧
    (∀ (env : ImgEnv) (fsFiles : List String) (iconUrl feedName e : String),
      env.fetchOk iconUrl = .ok true →
      env.writeOk (faviconFilename env iconUrl feedName) = .error e →
      fsFiles.contains (faviconFilename env iconUrl feedName) = false →
      cacheFaviconRun env fsFiles iconUrl feedName = (none, fsFiles, true)) := by
  refine ⟨?_, ?_, ?_, ?_, ?_, ?_⟩
  · intro env fsFiles url e hf hc
    have hm : ¬ urlToFilename env url ∈ fsFiles := by simpa using hc
    simp [cacheImageRun, cacheImageBody, hm, hf]
  · intro env fsFiles url hf hc
    have hm : ¬ urlToFilename env url ∈ fsFiles := by simpa using hc
    simp [cacheImageRun, cacheImageBody, hm, hf]
  · intro env fsFiles url e hf hw hc
    have hm : ¬ urlToFilename env url ∈ fsFiles := by simpa using hc
    simp [cacheImageRun, cacheImageBody, hm, hf, hw]
  · intro env fsFiles iconUrl feedName e hf hc
    have hm : ¬ faviconFilename env iconUrl feedName ∈ fsFiles := by simpa using hc
    simp [cacheFaviconRun, cacheFaviconBody, hm, hf]
  · intro env fsFiles iconUrl feedName hf hc
    have hm : ¬ faviconFilename env iconUrl feedName ∈ fsFiles := by simpa using hc
    simp [cacheFaviconRun, cacheFaviconBody, hm, hf]
  · intro env fsFiles iconUrl feedName e hf hw hc
    have hm : ¬ faviconFilename env iconUrl feedName ∈ fsFiles := by simpa using hc
    simp [cacheFaviconRun, cacheFaviconBody, hm, hf, hw]

/-- An image-cache environment whose fetch throws. -/
def envImgNetErr : ImgEnv :=
  { md5 := fun _ => "abc", extOf := fun _ => none
    fetchOk := fun _ => .error "network timeout", writeOk := fun _ => .ok () }

/-- Witness for C10: a thrown network error yields `null` from both
operations (with the feed name `My Feed!` exercising the sanitizer). -/
theorem C10_cache_never_throws_witness :
    cacheImageRun envImgNetErr [] "nonsense-url" = (none, [], true) ∧
    cacheFaviconRun envImgNetErr [] "nonsense-url" "My Feed!" = (none, [], true) :=
  ⟨C10_cache_never_throws.1 envImgNetErr [] "nonsense-url" "network timeout"
      rfl (by decide),
   C10_cache_never_throws.2.2.2.1 envImgNetErr [] "nonsense-url" "My Feed!"
      "network timeout" rfl (by decide)⟩

/-! ## Cache store state, `DELETE /api/cache` and `GET /api/status`
(`server.js` 247–268, 658–682) -/

/-- The state touched by the clear route: the filenames in the images
directory, whether the persisted snapshot file exists, and the in-memory
snapshot. -/
structure CacheState where
  imagesFiles : List String
  feedCacheOnDisk : Bool
  cachedFeeds : Snapshot
deriving DecidableEq

/-- The statistics of `getCacheStats` relevant to the claims.  The
`cacheSize` field (recursive byte size rendered through floating-point
`Math.log`) is environment- and float-dependent and is not modelled. -/
structure CacheStats where
  feeds : Nat
  articles : Nat
  images : Nat
  lastUpdated : String
deriving DecidableEq

/-- `getCacheStats`: configured feed count, `cachedFeeds.items` length,
number of files in the images directory, and `lastUpdated || 'Never'`. -/
def getCacheStats (numFeeds : Nat) (st : CacheState) : CacheStats :=
  { feeds := numFeeds
    articles := st.cachedFeeds.items.length
    images := st.imagesFiles.length
    lastUpdated := st.cachedFeeds.lastUpdated.getD "Never" }

/-- The state after a successful clear: all image files unlinked, the
snapshot file unlinked, and the in-memory snapshot reset. -/
def clearedCacheState : CacheState := ⟨[], false, emptySnapshot⟩

/-- `DELETE /api/cache`: on success clear everything and answer with a
message; if one of the filesystem operations throws, the `catch` answers
500 with the error message (`fsFail` supplies the thrown message and the
partially cleared filesystem state, which is environment-determined). -/
def clearCacheRoute (fsFail : Option (String × CacheState)) (_st : CacheState) :
    Resp × CacheState :=
  match fsFail with
  | some (e, stAfter) => ({ status := 500, body := .error e }, stAfter)
  | none => ({ status := 200, body := .message "Cache cleared successfully" },
      clearedCacheState)

/-- C8: a successful `DELETE /api/cache` deletes the cached assets and the
snapshot file and resets the in-memory snapshot, so a subsequent
`GET /api/status` reports `images = 0`, `articles = 0` and
`lastUpdated = "Never"`; a filesystem failure during the clear yields a 500
with an error body. -/
theorem C8_cache_clear :
    (∀ (numFeeds : Nat) (st : CacheState),
      (clearCacheRoute none st).1 =
        { status := 200, body := .message "Cache cleared successfully" } ∧
      (clearCacheRoute none st).2 = clearedCacheState ∧
      getCacheStats numFeeds (clearCacheRoute none st).2 =
        { feeds := numFeeds, articles := 0, images := 0, lastUpdated := "Never" }) ∧
    (∀ (e : String) (stAfter st : CacheState),
      clearCacheRoute (some (e, stAfter)) st =
        ({ status := 500, body := .error e }, stAfter)) := by
  constructor
  · intro numFeeds st
    refine ⟨rfl, rfl, ?_⟩
    simp [getCacheStats, clearCacheRoute, clearedCacheState, emptySnapshot]
  · intro e stAfter st
    rfl

/-! ## IP allow list (`isIpAllowed`, `ipAllowListMiddleware`,
`server.js` 47–91) -/

/-- `'a/b/c'.split(sep)` for a single-character separator. -/
def splitOnChar (sep : Char) : List Char → List (List Char)
  | [] => [[]]
  | c :: t =>
      let r := splitOnChar sep t
      if c == sep then [] :: r
      else (c :: r.headD []) :: r.tail

/-- `parseInt` on the strings occurring as CIDR prefix lengths: the leading
decimal digits, `none` for `NaN` (no leading digit; signs and leading
whitespace do not occur in such entries). -/
def jsParseIntNat (s : List Char) : Option Nat :=
  let ds := s.takeWhile (fun c => c.isDigit)
  if ds.isEmpty then none
  else some (ds.foldl (fun n c => n * 10 + (c.toNat - '0'.toNat)) 0)

/-- The CIDR check of `isIpAllowed` (`server.js` 62–68):
`ip.startsWith(network.split('.').slice(0, parseInt(prefix) / 8).join('.'))`
with `[network, prefix] = allowed.split('/')`.  `Array.slice` truncates the
fractional bound to an integer (`Nat` division by 8) and turns `NaN` into 0,
so an unparseable prefix yields the empty join, which every address
starts with. -/
def cidrMatches (entry ip : String) : Bool :=
  let parts := splitOnChar '/' entry.data
  let network := parts.headD []
  let sliceLen :=
    match jsParseIntNat (parts.getD 1 []) with
    | none => 0
    | some n => n / 8
  let pieces := splitOnChar '.' network
  (List.intercalate ['.'] (pieces.take sliceLen)).isPrefixOf ip.data

def isLoopbackIp (ip : String) : Bool :=
  ip == "::1" || ip == "127.0.0.1" || ip == "localhost"

def isLoopbackEntry (a : String) : Bool :=
  a == "127.0.0.1" || a == "::1" || a == "localhost"

/-- `isIpAllowed` (`server.js` 47–72): wildcard, exact match, then — for
loopback addresses — the loopback rule (which returns without falling
through), and only for other addresses the CIDR scan. -/
def isIpAllowed (allowedIps : List String) (ip : String) : Bool :=
  if allowedIps.contains "*" then true
  else if allowedIps.contains ip then true
  else if isLoopbackIp ip then allowedIps.any isLoopbackEntry
  else allowedIps.any (fun a => a.data.contains '/' && cidrMatches a ip)

/-- The static-asset exemption of the middleware (`server.js` 79). -/
def staticExempt (reqPath : String) : Bool :=
  "/images/".data.isPrefixOf reqPath.data ||
  ".html".data.isSuffixOf reqPath.data ||
  ".css".data.isSuffixOf reqPath.data ||
  ".js".data.isSuffixOf reqPath.data

inductive MwOutcome where
  | next
  | forbidden
deriving DecidableEq

/-- `ipAllowListMiddleware` (`server.js` 77–91): static assets and images
pass; otherwise a disallowed client address is answered 403. -/
def ipAllowListMiddleware (allowedIps : List String) (reqPath clientIp : String) :
    MwOutcome :=
  if staticExempt reqPath then .next
  else if !(isIpAllowed allowedIps clientIp) then .forbidden
  else .next

/-- The allow-list predicate exactly as the claim words it: a plain
disjunction of exact match, the loopback rule, a CIDR prefix match, and the
wildcard. -/
def claimAllowListPred (allowedIps : List String) (ip : String) : Bool :=
  allowedIps.contains "*" || allowedIps.contains ip ||
  (isLoopbackIp ip && allowedIps.any isLoopbackEntry) ||
  allowedIps.any (fun a => a.data.contains '/' && cidrMatches a ip)

/-- The amended predicate: for loopback addresses only the loopback rule
applies (the code returns from that branch without trying CIDR entries);
the CIDR scan applies only to non-loopback addresses. -/
def amendedAllowListPred (allowedIps : List String) (ip : String) : Bool :=
  allowedIps.contains "*" || allowedIps.contains ip ||
  (if isLoopbackIp ip then allowedIps.any isLoopbackEntry
   else allowedIps.any (fun a => a.data.contains '/' && cidrMatches a ip))

/-- C9 counterexample: with the allow list `127.0.0.0/8` the claim's
predicate accepts `127.0.0.1` through the CIDR rule, but the middleware
answers 403 on a non-static path — loopback addresses never reach the CIDR
check in the code. -/
theorem C9_counterexample :
    claimAllowListPred ["127.0.0.0/8"] "127.0.0.1" = true ∧
    staticExempt "/api/feeds" = false ∧
    ipAllowListMiddleware ["127.0.0.0/8"] "/api/feeds" "127.0.0.1" =
      .forbidden := by
  decide

/-- C9 amended: on every non-exempt path the middleware answers 403 exactly
when the amended predicate rejects the client address, and `isIpAllowed` is
exactly that predicate. -/
theorem C9_allow_list_gate :
    ∀ (allowedIps : List String) (reqPath clientIp : String),
      staticExempt reqPath = false →
      (ipAllowListMiddleware allowedIps reqPath clientIp = .forbidden ↔
        amendedAllowListPred allowedIps clientIp = false) ∧
      isIpAllowed allowedIps clientIp = amendedAllowListPred allowedIps clientIp := by
  intro allowedIps reqPath clientIp hex
  have hiff : isIpAllowed allowedIps clientIp =
      amendedAllowListPred allowedIps clientIp := by
    unfold isIpAllowed amendedAllowListPred
    by_cases h1 : allowedIps.contains "*" = true
    · simp [h1, Bool.or_assoc]
    · by_cases h2 : allowedIps.contains clientIp = true
      · simp [h1, h2, Bool.or_assoc]
      · simp [h1, h2, Bool.or_assoc]
  refine ⟨?_, hiff⟩
  unfold ipAllowListMiddleware
  rw [hex, hiff]
  cases h : amendedAllowListPred allowedIps clientIp <;> simp

/-- Witness for the amended C9 on a concrete non-exempt request. -/
theorem C9_allow_list_gate_witness :
    (ipAllowListMiddleware ["10.0.0.0/8"] "/api/feeds" "10.1.2.3" = .forbidden ↔
      amendedAllowListPred ["10.0.0.0/8"] "10.1.2.3" = false) ∧
    isIpAllowed ["10.0.0.0/8"] "10.1.2.3" =
      amendedAllowListPred ["10.0.0.0/8"] "10.1.2.3" :=
  C9_allow_list_gate ["10.0.0.0/8"] "/api/feeds" "10.1.2.3" (by decide)
